import Mathlib

/-!
Verification of the aggregation core of `cache_pbs_data.py`:
the `DevNode` resource tree and its free-block aggregation
(`free_cores_group`), the statistics accumulators (`ServerInfo`,
`QueueInfo`), the job-classification pipeline, the derived `load`
metric, the JSON sanitizer `safety_loads`, and queue construction.

Python integers are modelled as `Int` (subtraction such as
`all_cores - assigned_cores` can go negative), Python `None` as
`Option`, Python dicts that preserve insertion order as association
lists, and Python `sorted(..., reverse=True)` as an insertion sort in
descending order (on integers any descending sort of the same multiset
yields the same list).
-/

namespace PbsCache

/-! ### Descending sort, modelling sorted(l, reverse=True) -/

def sortDesc (l : List Int) : List Int := l.insertionSort (· ≥ ·)

/-! ### The DeviceNode tree (class DevNode) -/

/-- A node of the per-queue resource tree: device type
("cluster", "ibswitch", "host", "socket", "vnode"), name, optional
core/gpu capacities (None on the root), unused core/gpu counts
(meaningful on vnode leaves), and the ordered child list. -/
inductive DevNode where
  | mk (ty nm : String) (full_cores full_gpus : Option Int)
       (unused_cores unused_gpus : Int) (children : List DevNode)

def DevNode.ty : DevNode → String
  | .mk t _ _ _ _ _ _ => t

def DevNode.nm : DevNode → String
  | .mk _ n _ _ _ _ _ => n

def DevNode.full_cores : DevNode → Option Int
  | .mk _ _ fc _ _ _ _ => fc

def DevNode.full_gpus : DevNode → Option Int
  | .mk _ _ _ fg _ _ _ => fg

def DevNode.unused_cores : DevNode → Int
  | .mk _ _ _ _ uc _ _ => uc

def DevNode.unused_gpus : DevNode → Int
  | .mk _ _ _ _ _ ug _ => ug

def DevNode.children : DevNode → List DevNode
  | .mk _ _ _ _ _ _ cs => cs

/-- The capacity field the aggregation reads: `full_gpus` in gpu mode,
`full_cores` otherwise. -/
def capSel (gpu : Bool) (c : DevNode) : Option Int :=
  if gpu then c.full_gpus else c.full_cores

mutual

/-- `DevNode.free_cores_group` from the source: post-order free-block
aggregation.  A vnode leaf returns its unused count as a singleton; an
internal node runs the child loop starting from `cores = [0]` and
finally filters out zeroes and sorts descending. -/
def DevNode.free_cores_group (gpu : Bool) : DevNode → List Int
  | .mk ty _ _ _ uc ug cs =>
    if ty = "vnode" then
      [if gpu then ug else uc]
    else
      let p := freeLoop gpu ty cs 0 []
      sortDesc ((p.1 :: p.2).filter (fun c => c ≠ 0))

/-- The child loop of `free_cores_group`: `agg` is `cores[0]`, `out`
the extended tail.  A child is folded into `agg` exactly when its
capacity is present and truthy (nonzero), its blocks sum to that
capacity, and the current node is not the cluster root. -/
def freeLoop (gpu : Bool) (ty : String) :
    List DevNode → Int → List Int → Int × List Int
  | [], agg, out => (agg, out)
  | c :: rest, agg, out =>
    let c_free := DevNode.free_cores_group gpu c
    match capSel gpu c with
    | some k =>
      if k ≠ 0 ∧ c_free.sum = k ∧ ty ≠ "cluster" then
        freeLoop gpu ty rest (agg + k) out
      else
        freeLoop gpu ty rest agg (out ++ c_free)
    | none => freeLoop gpu ty rest agg (out ++ c_free)

end

mutual

/-- The aggregation as the specification words it, amended with the
nonzero-capacity requirement: fold a child when its capacity is known
and nonzero, its blocks sum to it, and the parent is not the
cluster-root; result is `[agg] + out` with zeroes dropped, sorted
descending. -/
def specAmendedBlocks (gpu : Bool) : DevNode → List Int
  | .mk ty _ _ _ uc ug cs =>
    if ty = "vnode" then
      [if gpu then ug else uc]
    else
      let p := specAmendedParts gpu ty cs
      sortDesc ((p.1 :: p.2).filter (fun c => c ≠ 0))

/-- Accumulator/output pair of the amended specification aggregation,
computed child by child from the right. -/
def specAmendedParts (gpu : Bool) (ty : String) :
    List DevNode → Int × List Int
  | [] => (0, [])
  | c :: rest =>
    let blocks := specAmendedBlocks gpu c
    let p := specAmendedParts gpu ty rest
    match capSel gpu c with
    | some k =>
      if k ≠ 0 ∧ blocks.sum = k ∧ ty ≠ "cluster" then
        (k + p.1, p.2)
      else
        (p.1, blocks ++ p.2)
    | none => (p.1, blocks ++ p.2)

end

mutual

/-- The aggregation exactly as the claim words it: fold a child
whenever its blocks sum to its known capacity (zero capacities
included) and the parent is not the cluster-root. -/
def specClaimBlocks (gpu : Bool) : DevNode → List Int
  | .mk ty _ _ _ uc ug cs =>
    if ty = "vnode" then
      [if gpu then ug else uc]
    else
      let p := specClaimParts gpu ty cs
      sortDesc ((p.1 :: p.2).filter (fun c => c ≠ 0))

/-- Accumulator/output pair of the claim-worded aggregation. -/
def specClaimParts (gpu : Bool) (ty : String) :
    List DevNode → Int × List Int
  | [] => (0, [])
  | c :: rest =>
    let blocks := specClaimBlocks gpu c
    let p := specClaimParts gpu ty rest
    match capSel gpu c with
    | some k =>
      if blocks.sum = k ∧ ty ≠ "cluster" then
        (k + p.1, p.2)
      else
        (p.1, blocks ++ p.2)
    | none => (p.1, blocks ++ p.2)

end

/-! ### Counters (collections.Counter fields used by BaseStat subclasses) -/

/-- The counter of `ServerInfo`: the ten `BaseStat` keys plus
`total_cores` / `total_gpus`. -/
structure SCounter where
  waiting_cores : Int
  offline_cores : Int
  free_cores : Int
  using_cores : Int
  running_jobs : Int
  waiting_jobs : Int
  free_gpus : Int
  using_gpus : Int
  waiting_gpus : Int
  offline_gpus : Int
  total_cores : Int
  total_gpus : Int
deriving DecidableEq

def SCounter.init : SCounter := ⟨0, 0, 0, 0, 0, 0, 0, 0, 0, 0, 0, 0⟩

/-- The counter of `QueueInfo`: the ten `BaseStat` keys plus
`min_cores` / `max_cores` / `min_gpus` / `max_gpus`. -/
structure QCounter where
  waiting_cores : Int
  offline_cores : Int
  free_cores : Int
  using_cores : Int
  running_jobs : Int
  waiting_jobs : Int
  free_gpus : Int
  using_gpus : Int
  waiting_gpus : Int
  offline_gpus : Int
  min_cores : Int
  max_cores : Int
  min_gpus : Int
  max_gpus : Int
deriving DecidableEq

def QCounter.init : QCounter := ⟨0, 0, 0, 0, 0, 0, 0, 0, 0, 0, 0, 0, 0, 0⟩

/-- Pointwise order on server-scope counters. -/
def SCounter.le (a b : SCounter) : Prop :=
  a.waiting_cores ≤ b.waiting_cores ∧ a.offline_cores ≤ b.offline_cores ∧
  a.free_cores ≤ b.free_cores ∧ a.using_cores ≤ b.using_cores ∧
  a.running_jobs ≤ b.running_jobs ∧ a.waiting_jobs ≤ b.waiting_jobs ∧
  a.free_gpus ≤ b.free_gpus ∧ a.using_gpus ≤ b.using_gpus ∧
  a.waiting_gpus ≤ b.waiting_gpus ∧ a.offline_gpus ≤ b.offline_gpus ∧
  a.total_cores ≤ b.total_cores ∧ a.total_gpus ≤ b.total_gpus

/-- Pointwise order on queue-scope counters. -/
def QCounter.le (a b : QCounter) : Prop :=
  a.waiting_cores ≤ b.waiting_cores ∧ a.offline_cores ≤ b.offline_cores ∧
  a.free_cores ≤ b.free_cores ∧ a.using_cores ≤ b.using_cores ∧
  a.running_jobs ≤ b.running_jobs ∧ a.waiting_jobs ≤ b.waiting_jobs ∧
  a.free_gpus ≤ b.free_gpus ∧ a.using_gpus ≤ b.using_gpus ∧
  a.waiting_gpus ≤ b.waiting_gpus ∧ a.offline_gpus ≤ b.offline_gpus ∧
  a.min_cores ≤ b.min_cores ∧ a.max_cores ≤ b.max_cores ∧
  a.min_gpus ≤ b.min_gpus ∧ a.max_gpus ≤ b.max_gpus

/-! ### ServerInfo -/

/-- `ServerInfo` state: counter, user set (as a duplicate-free list)
and job-size sample list inherited from `BaseStat`. -/
structure ServerInfo where
  counter : SCounter
  users : List String
  job_size : List Int

def ServerInfo.init : ServerInfo := ⟨SCounter.init, [], []⟩

/-- `set.add`: insert a user if not already present. -/
def setAdd (s : List String) (u : String) : List String :=
  if u ∈ s then s else s ++ [u]

/-- `ServerInfo.add_vnode`: add totals, offline counters when the node
is offline, then `free = all - assigned` for cores and gpus. -/
def ServerInfo.add_vnode (s : ServerInfo)
    (all_cores assigned_cores all_gpus assigned_gpus : Int)
    (is_offline : Bool) : ServerInfo :=
  let c := s.counter
  let c := { c with total_cores := c.total_cores + all_cores,
                    total_gpus := c.total_gpus + all_gpus }
  let c := if is_offline then
      { c with offline_cores := c.offline_cores + all_cores,
               offline_gpus := c.offline_gpus + all_gpus }
    else c
  let c := { c with
      free_cores := c.free_cores + (all_cores - assigned_cores),
      free_gpus := c.free_gpus + (all_gpus - assigned_gpus) }
  { s with counter := c }

/-! ### QueueInfo -/

/-- `QueueInfo` state: `BaseStat` fields, the queue name, the device
tree root, and the per-level capacity maps fixed at construction. -/
structure QueueInfo where
  name : String
  counter : QCounter
  users : List String
  job_size : List Int
  root : DevNode
  host : Int
  socket : Int
  vnode : Int
  gpus_vnode : Int
  gpus_socket : Int
  gpus_host : Int

/-- `full_cores_map.get(dev_type, 0)`. -/
def QueueInfo.coresMapGet (qi : QueueInfo) : String → Int
  | "host" => qi.host
  | "socket" => qi.socket
  | "vnode" => qi.vnode
  | _ => 0

/-- `full_gpus_map.get(dev_type, 0)`. -/
def QueueInfo.gpusMapGet (qi : QueueInfo) : String → Int
  | "vnode" => qi.gpus_vnode
  | "socket" => qi.gpus_socket
  | "host" => qi.gpus_host
  | _ => 0

/-- `QueueInfo.__init__`: building `full_gpus_map` divides by the
per-vnode core density with Python floor division, which raises
`ZeroDivisionError` when `vnode == 0` (modelled as `none`). -/
def QueueInfo.init (queue : String)
    (host socket vnode gpus_vnode : Int) : Option QueueInfo :=
  if vnode = 0 then none
  else some
    { name := queue
      counter := QCounter.init
      users := []
      job_size := []
      root := DevNode.mk "cluster" "root" none none 0 0 []
      host := host
      socket := socket
      vnode := vnode
      gpus_vnode := gpus_vnode
      gpus_socket := Int.fdiv (socket * gpus_vnode) vnode
      gpus_host := Int.fdiv (host * gpus_vnode) vnode }

/-- Replace the first list element satisfying `p` by `f` of it. -/
def mapFirst (p : DevNode → Bool) (f : DevNode → DevNode) :
    List DevNode → List DevNode
  | [] => []
  | c :: cs => if p c then f c :: cs else c :: mapFirst p f cs

/-- The tree-walk of `QueueInfo.add_vnode`: descend along the device
path, reusing an existing child of the same name or lazily creating
one (with capacities from the maps, and the free counts stamped on a
vnode), then continue with the rest of the path. -/
def insertPath (fcm fgm : String → Int) (free_c free_g : Int) :
    List (String × String) → DevNode → DevNode
  | [], n => n
  | (ty, nm) :: rest, .mk t name fc fg uc ug cs =>
    if cs.any (fun c => c.nm = nm) then
      .mk t name fc fg uc ug
        (mapFirst (fun c => c.nm = nm)
          (fun c => insertPath fcm fgm free_c free_g rest c) cs)
    else
      let node := DevNode.mk ty nm (some (fcm ty)) (some (fgm ty))
          (if ty = "vnode" then free_c else 0)
          (if ty = "vnode" then free_g else 0) []
      .mk t name fc fg uc ug
        (cs ++ [insertPath fcm fgm free_c free_g rest node])

/-- The device path: the four levels in order, keeping only the levels
whose identifier is present and truthy (non-empty). -/
def devPath (devices : String → Option String) : List (String × String) :=
  (["ibswitch", "host", "socket", "vnode"]).filterMap fun ty =>
    match devices ty with
    | some nm => if nm = "" then none else some (ty, nm)
    | none => none

/-- `QueueInfo.add_vnode`: offline nodes only touch counters (assigned
capacity counts as max, and min when private); online nodes record
max/min capacity and free counts, and are inserted into the tree
unless their free core count is zero. -/
def QueueInfo.add_vnode (qi : QueueInfo)
    (all_cores assigned_cores all_gpus assigned_gpus : Int)
    (is_offline is_private : Bool)
    (devices : String → Option String) : QueueInfo :=
  if is_offline then
    let c := qi.counter
    let c := { c with offline_cores := c.offline_cores + all_cores,
                      offline_gpus := c.offline_gpus + all_gpus }
    let c := { c with max_cores := c.max_cores + assigned_cores,
                      max_gpus := c.max_gpus + assigned_gpus }
    let c := if is_private then
        { c with min_cores := c.min_cores + assigned_cores,
                 min_gpus := c.min_gpus + assigned_gpus }
      else c
    { qi with counter := c }
  else
    let c := qi.counter
    let c := { c with max_cores := c.max_cores + all_cores,
                      max_gpus := c.max_gpus + all_gpus }
    let c := if is_private then
        { c with min_cores := c.min_cores + all_cores,
                 min_gpus := c.min_gpus + all_gpus }
      else c
    let free_cores := all_cores - assigned_cores
    let free_gpus := all_gpus - assigned_gpus
    let c := { c with free_cores := c.free_cores + free_cores,
                      free_gpus := c.free_gpus + free_gpus }
    if free_cores = 0 then
      { qi with counter := c }
    else
      { qi with counter := c,
                root := insertPath qi.coresMapGet qi.gpusMapGet
                  free_cores free_gpus (devPath devices) qi.root }

/-! ### Job classification (the job loop of pbs_data_ex) -/

/-- The fields of one job record that the job loop reads. -/
structure JobData where
  queue : String
  job_state : String
  ncpus : Option Int
  ngpus : Option Int
  euser : String

/-- One iteration body of the job loop once the owning queue is
resolved: running jobs update using counters, the user set and the
job-size samples; queued jobs update waiting counters; any other state
updates nothing. -/
def classifyJob (s : ServerInfo) (qi : QueueInfo) (j : JobData) :
    ServerInfo × QueueInfo :=
  let cores := j.ncpus.getD 0
  let gpus := j.ngpus.getD 0
  if j.job_state = "R" then
    let sc := s.counter
    let sc := { sc with using_cores := sc.using_cores + cores,
                        running_jobs := sc.running_jobs + 1,
                        using_gpus := sc.using_gpus + gpus }
    let qc := qi.counter
    let qc := { qc with using_cores := qc.using_cores + cores,
                        running_jobs := qc.running_jobs + 1,
                        using_gpus := qc.using_gpus + gpus }
    let jobsize := j.ncpus.getD 0
    (⟨sc, setAdd s.users j.euser, s.job_size ++ [jobsize]⟩,
     { qi with counter := qc, users := setAdd qi.users j.euser,
               job_size := qi.job_size ++ [jobsize] })
  else if j.job_state = "Q" then
    let sc := s.counter
    let sc := { sc with waiting_cores := sc.waiting_cores + cores,
                        waiting_jobs := sc.waiting_jobs + 1,
                        waiting_gpus := sc.waiting_gpus + gpus }
    let qc := qi.counter
    let qc := { qc with waiting_cores := qc.waiting_cores + cores,
                        waiting_jobs := qc.waiting_jobs + 1,
                        waiting_gpus := qc.waiting_gpus + gpus }
    ({ s with counter := sc }, { qi with counter := qc })
  else
    (s, qi)

/-- Lookup in the queue catalogue (a dict keyed by queue name). -/
def qlookup (q : String) : List (String × QueueInfo) → Option QueueInfo
  | [] => none
  | (k, v) :: rest => if k = q then some v else qlookup q rest

/-- Replace the catalogue entry for `q`. -/
def qupdate (q : String) (qi : QueueInfo) :
    List (String × QueueInfo) → List (String × QueueInfo)
  | [] => []
  | (k, v) :: rest =>
    if k = q then (k, qi) :: rest else (k, v) :: qupdate q qi rest

/-- The job loop: for each job resolve the owning queue; when it is
not in the catalogue, log and skip the job and keep going; otherwise
classify the job at both scopes. -/
def processJobs (s : ServerInfo) (queues : List (String × QueueInfo)) :
    List JobData → ServerInfo × List (String × QueueInfo)
  | [] => (s, queues)
  | j :: rest =>
    match qlookup j.queue queues with
    | none => processJobs s queues rest
    | some qi =>
      let p := classifyJob s qi j
      processJobs p.1 (qupdate j.queue p.2 queues) rest

/-! ### The load metric (BaseStat.load) -/

/-- Division that signals Python ZeroDivisionError as `none`. -/
def tryDiv (a b : ℚ) : Option ℚ := if b = 0 then none else some (a / b)

/-- Round to the nearest integer, ties to the even integer, as Python
round does (numbers are modelled as exact rationals). -/
def roundHalfEven (q : ℚ) : Int :=
  let f := ⌊q⌋
  let r := q - f
  if r < 1 / 2 then f
  else if 1 / 2 < r then f + 1
  else if Even f then f else f + 1

/-- `round(x, 2)`. -/
def roundTo2 (q : ℚ) : ℚ := (roundHalfEven (q * 100) : ℚ) / 100

/-- `BaseStat.load` as a function of the three counters it reads:
round the ratio, with the ZeroDivisionError handler returning 0.0. -/
def load (using_cores waiting_cores free_cores : Int) : ℚ :=
  match tryDiv ((using_cores : ℚ) + (waiting_cores : ℚ))
      ((using_cores : ℚ) + (free_cores : ℚ)) with
  | some q => roundTo2 q
  | none => 0

/-! ### The sanitizer (safety_loads)

Strings are modelled as their character lists so the split/join pair
is executable by the kernel. -/

/-- `data.split(chr(10))`: split a character list at newlines; the
empty string yields one empty line. -/
def splitLines : List Char → List (List Char)
  | [] => [[]]
  | c :: rest =>
    match splitLines rest with
    | [] => [[c]]
    | l :: ls => if c = '\n' then [] :: l :: ls else (c :: l) :: ls

/-- `chr(10).join(lines)`. -/
def joinLines : List (List Char) → List Char
  | [] => []
  | [l] => l
  | l :: ls => l ++ '\n' :: joinLines ls

/-- `safety_loads`, with an explicit fuel bound added so the Python
while-True loop can be reasoned about: parse, and on a decode error at
`lineno` drop that line and retry.  The parser is abstract; an error
carries the reported line number.  `none` means the fuel ran out, i.e.
the Python loop is still running after that many iterations. -/
def safety_loads {J : Type} (parse : List Char → Except Nat J) :
    Nat → List Char → Option J
  | 0, _ => none
  | fuel + 1, data =>
    match parse data with
    | .ok d => some d
    | .error lineno =>
      let l := splitLines data
      let l := l.eraseIdx (lineno - 1)
      safety_loads parse fuel (joinLines l)

/-! ### Queue construction in pbs_data_ex -/

/-- The raw per-queue resource densities found by the jmespath search
(`none` when the attribute is missing). -/
structure QueueCfg where
  host : Option Int
  socket : Option Int
  vnode : Option Int
  gpus_vnode : Option Int

/-- The `v or 0` normalisation applied to each density. -/
def orZero (v : Option Int) : Int := v.getD 0

/-- The queue-construction loop of `pbs_data_ex`: construct a
`QueueInfo` per declared queue; a ZeroDivisionError inside the
constructor propagates and aborts the whole pass. -/
def initQueues : List (String × QueueCfg) →
    Except String (List (String × QueueInfo))
  | [] => .ok []
  | (q, cfg) :: rest =>
    match QueueInfo.init q (orZero cfg.host) (orZero cfg.socket)
        (orZero cfg.vnode) (orZero cfg.gpus_vnode) with
    | none => .error "ZeroDivisionError"
    | some qi =>
      match initQueues rest with
      | .ok l => .ok ((q, qi) :: l)
      | .error e => .error e

/-! ### Helper lemmas -/

theorem sortDesc_sorted (l : List Int) : (sortDesc l).Sorted (· ≥ ·) :=
  List.sorted_insertionSort _ l

theorem sortDesc_perm (l : List Int) : List.Perm (sortDesc l) l :=
  List.perm_insertionSort _ l

theorem mem_sortDesc {a : Int} {l : List Int} :
    a ∈ sortDesc l ↔ a ∈ l :=
  (sortDesc_perm l).mem_iff

theorem sizeOf_lt_of_mem_children {c : DevNode} {ty nm : String}
    {fc fg : Option Int} {uc ug : Int} {cs : List DevNode}
    (h : c ∈ cs) :
    sizeOf c < sizeOf (DevNode.mk ty nm fc fg uc ug cs) := by
  have h1 : sizeOf c < sizeOf cs := List.sizeOf_lt_of_mem h
  simp only [DevNode.mk.sizeOf_spec]
  omega

/-- The child loop computes the same accumulator/output pair as the
amended specification aggregation, provided the recursive results
agree on every child. -/
theorem freeLoop_eq_specParts (gpu : Bool) (ty : String)
    (cs : List DevNode)
    (IH : ∀ c ∈ cs,
      DevNode.free_cores_group gpu c = specAmendedBlocks gpu c) :
    ∀ agg out, freeLoop gpu ty cs agg out =
      (agg + (specAmendedParts gpu ty cs).1,
       out ++ (specAmendedParts gpu ty cs).2) := by
  induction cs with
  | nil => intro agg out; simp [freeLoop, specAmendedParts]
  | cons c rest ih =>
    intro agg out
    have hc : DevNode.free_cores_group gpu c = specAmendedBlocks gpu c :=
      IH c (List.mem_cons_self c rest)
    have hrest : ∀ x ∈ rest,
        DevNode.free_cores_group gpu x = specAmendedBlocks gpu x :=
      fun x hx => IH x (List.mem_cons_of_mem c hx)
    rw [freeLoop, specAmendedParts]
    cases hcap : capSel gpu c with
    | none =>
      simp only [hc, hcap, ih hrest]
      simp [List.append_assoc]
    | some k =>
      by_cases hcond :
          k ≠ 0 ∧ (specAmendedBlocks gpu c).sum = k ∧ ty ≠ "cluster"
      · simp only [hc, hcap, if_pos hcond, ih hrest]
        rw [add_assoc]
      · simp only [hc, hcap, if_neg hcond, ih hrest]
        simp [List.append_assoc]

/-- `free_cores_group` agrees with the amended specification
aggregation, by strong induction on the tree size. -/
theorem free_eq_specAux (gpu : Bool) :
    ∀ k, ∀ n : DevNode, sizeOf n ≤ k →
      DevNode.free_cores_group gpu n = specAmendedBlocks gpu n := by
  intro k
  induction k with
  | zero =>
    intro n h
    obtain ⟨ty, nm, fc, fg, uc, ug, cs⟩ := n
    simp only [DevNode.mk.sizeOf_spec] at h
    omega
  | succ k ih =>
    intro n hn
    obtain ⟨ty, nm, fc, fg, uc, ug, cs⟩ := n
    rw [DevNode.free_cores_group, specAmendedBlocks]
    by_cases hty : ty = "vnode"
    · simp [hty]
    · have IH : ∀ c ∈ cs,
          DevNode.free_cores_group gpu c = specAmendedBlocks gpu c := by
        intro c hc
        apply ih
        have h1 : sizeOf c < sizeOf (DevNode.mk ty nm fc fg uc ug cs) :=
          sizeOf_lt_of_mem_children hc
        omega
      simp only [if_neg hty]
      rw [freeLoop_eq_specParts gpu ty cs IH 0 []]
      simp

/-- With every child entirely free (in the sense of the fold
condition), the child loop folds them all into the accumulator. -/
theorem freeLoop_allFold (gpu : Bool) (ty : String)
    (hty : ty ≠ "cluster") :
    ∀ cs : List DevNode,
      (∀ c ∈ cs, ∃ k, capSel gpu c = some k ∧ k ≠ 0 ∧
        (DevNode.free_cores_group gpu c).sum = k) →
      ∀ agg out, freeLoop gpu ty cs agg out =
        (agg + (cs.map fun c => (capSel gpu c).getD 0).sum, out) := by
  intro cs
  induction cs with
  | nil => intro _ agg out; simp [freeLoop]
  | cons c rest ih =>
    intro hall agg out
    obtain ⟨k, hk, hk0, hsum⟩ := hall c (List.mem_cons_self c rest)
    rw [freeLoop]
    simp only [hk]
    rw [if_pos ⟨hk0, hsum, hty⟩]
    rw [ih (fun x hx => hall x (List.mem_cons_of_mem c hx))]
    simp only [List.map_cons, List.sum_cons, hk, Option.getD_some]
    rw [add_assoc]

/-- At the cluster root the child loop never folds: it appends every
child's blocks. -/
theorem freeLoop_cluster (gpu : Bool) :
    ∀ cs : List DevNode, ∀ agg out,
      freeLoop gpu "cluster" cs agg out =
        (agg, out ++ cs.flatMap (DevNode.free_cores_group gpu)) := by
  intro cs
  induction cs with
  | nil => intro agg out; simp [freeLoop]
  | cons c rest ih =>
    intro agg out
    rw [freeLoop]
    cases hcap : capSel gpu c with
    | none => simp [ih, List.flatMap_cons, List.append_assoc]
    | some k =>
      have : ¬(k ≠ 0 ∧ (DevNode.free_cores_group gpu c).sum = k ∧
          ("cluster" : String) ≠ "cluster") := by
        intro h
        exact h.2.2 rfl
      simp only [if_neg this]
      simp [ih, List.flatMap_cons, List.append_assoc]

/-! ### Claim C1 -/

/-- C1 (counterexample): the fold condition of `free_cores_group` is
not "blocks sum to the known capacity and the parent is not the
cluster-root": the code additionally requires the capacity to be
truthy (nonzero).  On a socket whose host child has capacity 0 (the
map default) and leaves with unused counts 3 and -3, the code keeps
the blocks `[3, -3]` while the claim-worded rule folds the child away
and returns `[]`. -/
theorem c1_fold_rule_counterexample :
    DevNode.free_cores_group false
        (.mk "socket" "s" (some 5) none 0 0
          [.mk "host" "h" (some 0) none 0 0
            [.mk "vnode" "v1" (some 5) none 3 0 [],
             .mk "vnode" "v2" (some 5) none (-3) 0 []]]) ≠
      specClaimBlocks false
        (.mk "socket" "s" (some 5) none 0 0
          [.mk "host" "h" (some 0) none 0 0
            [.mk "vnode" "v1" (some 5) none 3 0 [],
             .mk "vnode" "v2" (some 5) none (-3) 0 []]]) ∧
    DevNode.free_cores_group false
        (.mk "socket" "s" (some 5) none 0 0
          [.mk "host" "h" (some 0) none 0 0
            [.mk "vnode" "v1" (some 5) none 3 0 [],
             .mk "vnode" "v2" (some 5) none (-3) 0 []]]) = [3, -3] ∧
    specClaimBlocks false
        (.mk "socket" "s" (some 5) none 0 0
          [.mk "host" "h" (some 0) none 0 0
            [.mk "vnode" "v1" (some 5) none 3 0 [],
             .mk "vnode" "v2" (some 5) none (-3) 0 []]]) = [] := by
  refine ⟨by decide, by decide, by decide⟩

/-- C1 (amended): the aggregation folds a child exactly when its
capacity is known and nonzero, its blocks sum to that capacity, and
the parent is not the cluster-root; consequently fully-free siblings
(with positive capacities) below the cluster-root collapse into one
entry equal to the sum of their capacities, while at the cluster-root
no child is ever folded — every child's block list is appended
verbatim (then zeroes are dropped and the list sorted). -/
theorem c1_free_block_aggregation_amended :
    (∀ gpu n, DevNode.free_cores_group gpu n = specAmendedBlocks gpu n) ∧
    (∀ gpu ty nm fc fg uc ug cs, ty ≠ "vnode" → ty ≠ "cluster" →
      cs ≠ [] →
      (∀ c ∈ cs, ∃ k, capSel gpu c = some k ∧ 0 < k ∧
        (DevNode.free_cores_group gpu c).sum = k) →
      DevNode.free_cores_group gpu (.mk ty nm fc fg uc ug cs) =
        [(cs.map fun c => (capSel gpu c).getD 0).sum]) ∧
    (∀ gpu nm fc fg uc ug cs,
      DevNode.free_cores_group gpu (.mk "cluster" nm fc fg uc ug cs) =
        sortDesc ((cs.flatMap (DevNode.free_cores_group gpu)).filter
          fun c => c ≠ 0)) := by
  refine ⟨fun gpu n => free_eq_specAux gpu (sizeOf n) n le_rfl, ?_, ?_⟩
  · intro gpu ty nm fc fg uc ug cs hty hcl hne hall
    have hall' : ∀ c ∈ cs, ∃ k, capSel gpu c = some k ∧ k ≠ 0 ∧
        (DevNode.free_cores_group gpu c).sum = k := by
      intro c hc
      obtain ⟨k, hk, hk0, hsum⟩ := hall c hc
      exact ⟨k, hk, hk0.ne', hsum⟩
    rw [DevNode.free_cores_group, if_neg hty,
      freeLoop_allFold gpu ty hcl cs hall' 0 []]
    have hpos : 0 < (cs.map fun c => (capSel gpu c).getD 0).sum := by
      apply List.sum_pos
      · intro a ha
        obtain ⟨c, hc, rfl⟩ := List.mem_map.mp ha
        obtain ⟨k, hk, hk0, -⟩ := hall c hc
        rw [hk]
        exact hk0
      · simpa using hne
    simp only [zero_add]
    have hfilter :
        (((cs.map fun c => (capSel gpu c).getD 0).sum :: ([] : List Int)).filter
          fun c => c ≠ 0) = [(cs.map fun c => (capSel gpu c).getD 0).sum] := by
      simp [List.filter, hpos.ne']
    rw [hfilter]
    rfl
  · intro gpu nm fc fg uc ug cs
    rw [DevNode.free_cores_group, if_neg (by decide : ¬("cluster" = "vnode")),
      freeLoop_cluster gpu cs 0 []]
    simp [List.filter]

/-- C1 witness: two fully-free 4-core vnodes under a socket collapse
to `[8]`; at the cluster-root nothing is folded. -/
theorem c1_free_block_aggregation_amended_witness :
    DevNode.free_cores_group false
        (.mk "socket" "s" (some 8) none 0 0
          [.mk "vnode" "a" (some 4) none 4 0 [],
           .mk "vnode" "b" (some 4) none 4 0 []]) = [8] ∧
    DevNode.free_cores_group false
        (.mk "cluster" "root" none none 0 0
          [.mk "vnode" "a" (some 4) none 4 0 [],
           .mk "vnode" "b" (some 4) none 4 0 []]) =
      sortDesc (([DevNode.mk "vnode" "a" (some 4) none 4 0 [],
        DevNode.mk "vnode" "b" (some 4) none 4 0 []].flatMap
          (DevNode.free_cores_group false)).filter fun c => c ≠ 0) := by
  constructor
  · have h := c1_free_block_aggregation_amended.2.1 false "socket" "s"
      (some 8) none 0 0
      [.mk "vnode" "a" (some 4) none 4 0 [],
       .mk "vnode" "b" (some 4) none 4 0 []]
      (by decide) (by decide) (List.cons_ne_nil _ _)
      (by
        intro c hc
        rcases List.mem_cons.mp hc with h | h
        · exact ⟨4, by rw [h]; rfl, by decide, by rw [h]; decide⟩
        · rcases List.mem_cons.mp h with h2 | h2
          · exact ⟨4, by rw [h2]; rfl, by decide, by rw [h2]; decide⟩
          · cases h2)
    exact h.trans (by decide)
  · exact c1_free_block_aggregation_amended.2.2 false "root" none none 0 0
      [.mk "vnode" "a" (some 4) none 4 0 [],
       .mk "vnode" "b" (some 4) none 4 0 []]

/-! ### Claim C2 -/

/-- C2 (counterexample): a vnode leaf with free count 0 returns `[0]`,
not the empty list — the zero is discarded by the internal-node
caller, not by the leaf itself. -/
theorem c2_leaf_zero_counterexample :
    DevNode.free_cores_group false (.mk "vnode" "v" none none 0 0 []) = [0] ∧
    ([0] : List Int) ≠ [] := by
  refine ⟨by decide, by decide⟩

/-- C2 (amended): a vnode leaf always returns the singleton of its
free count — `[free]` when free > 0, and `[0]` (not `[]`) when
free = 0. -/
theorem c2_leaf_singleton_amended :
    ∀ gpu nm fc fg uc ug cs,
      DevNode.free_cores_group gpu (.mk "vnode" nm fc fg uc ug cs) =
        [if gpu then ug else uc] := by
  intro gpu nm fc fg uc ug cs
  rw [DevNode.free_cores_group, if_pos rfl]

/-! ### Claim C5 -/

/-- C5 (confirmed): on every internal (non-vnode) node the result of
`free_cores_group` is sorted in descending order and contains no zero
entry. -/
theorem c5_internal_sorted_no_zero :
    ∀ gpu ty nm fc fg uc ug cs, ty ≠ "vnode" →
      (DevNode.free_cores_group gpu (.mk ty nm fc fg uc ug cs)).Sorted
          (· ≥ ·) ∧
      (0 : Int) ∉ DevNode.free_cores_group gpu (.mk ty nm fc fg uc ug cs) := by
  intro gpu ty nm fc fg uc ug cs hty
  rw [DevNode.free_cores_group, if_neg hty]
  constructor
  · exact sortDesc_sorted _
  · intro hmem
    have h1 := mem_sortDesc.mp hmem
    have h2 := (List.mem_filter.mp h1).2
    simp at h2

/-- C5 witness: a host with leaves of free counts 3, 0 and 5 yields a
descending, zero-free list. -/
theorem c5_internal_sorted_no_zero_witness :
    (DevNode.free_cores_group false
        (.mk "host" "h" (some 10) none 0 0
          [.mk "vnode" "a" (some 4) none 3 0 [],
           .mk "vnode" "b" (some 4) none 0 0 [],
           .mk "vnode" "c" (some 4) none 5 0 []])).Sorted (· ≥ ·) ∧
    (0 : Int) ∉ DevNode.free_cores_group false
        (.mk "host" "h" (some 10) none 0 0
          [.mk "vnode" "a" (some 4) none 3 0 [],
           .mk "vnode" "b" (some 4) none 0 0 [],
           .mk "vnode" "c" (some 4) none 5 0 []]) :=
  c5_internal_sorted_no_zero false "host" "h" (some 10) none 0 0
    [.mk "vnode" "a" (some 4) none 3 0 [],
     .mk "vnode" "b" (some 4) none 0 0 [],
     .mk "vnode" "c" (some 4) none 5 0 []] (by decide)

/-! ### Claim C4 -/

/-- C4 (counterexample): with arbitrary integer inputs the counters
are not monotone — `add_vnode` with `assigned_cores > all_cores` adds
the negative difference to `free_cores`, decrementing it. -/
theorem c4_monotone_counterexample :
    (ServerInfo.init.add_vnode 0 1 0 0 false).counter.free_cores <
      ServerInfo.init.counter.free_cores := by
  decide

/-- C4 (amended): counters never decrease across an `add_vnode` call
or a job classification provided the inputs are well-formed, i.e.
`0 ≤ assigned ≤ all` for cores and gpus and nonnegative job resource
requests. -/
theorem c4_counters_monotone_amended :
    (∀ (s : ServerInfo) ac asc ag asg (off : Bool),
      0 ≤ asc → asc ≤ ac → 0 ≤ asg → asg ≤ ag →
      SCounter.le s.counter (s.add_vnode ac asc ag asg off).counter) ∧
    (∀ (qi : QueueInfo) ac asc ag asg (off priv : Bool) devices,
      0 ≤ asc → asc ≤ ac → 0 ≤ asg → asg ≤ ag →
      QCounter.le qi.counter
        (qi.add_vnode ac asc ag asg off priv devices).counter) ∧
    (∀ (s : ServerInfo) (qi : QueueInfo) (j : JobData),
      0 ≤ j.ncpus.getD 0 → 0 ≤ j.ngpus.getD 0 →
      SCounter.le s.counter (classifyJob s qi j).1.counter ∧
      QCounter.le qi.counter (classifyJob s qi j).2.counter) := by
  refine ⟨?_, ?_, ?_⟩
  · intro s ac asc ag asg off h1 h2 h3 h4
    cases off <;> simp [ServerInfo.add_vnode, SCounter.le] <;> omega
  · intro qi ac asc ag asg off priv devices h1 h2 h3 h4
    cases off <;> cases priv <;>
      by_cases hf : ac - asc = 0 <;>
      simp [QueueInfo.add_vnode, QCounter.le, hf] <;> omega
  · intro s qi j h1 h2
    by_cases hr : j.job_state = "R"
    · constructor <;> simp [classifyJob, hr, SCounter.le, QCounter.le] <;> omega
    · by_cases hq : j.job_state = "Q"
      · constructor <;>
          simp [classifyJob, hr, hq, SCounter.le, QCounter.le] <;> omega
      · constructor <;>
          simp [classifyJob, hr, hq, SCounter.le, QCounter.le]

/-- C4 witness: concrete monotone updates at both scopes. -/
theorem c4_counters_monotone_amended_witness :
    SCounter.le ServerInfo.init.counter
      (ServerInfo.init.add_vnode 16 4 2 1 false).counter :=
  c4_counters_monotone_amended.1 ServerInfo.init 16 4 2 1 false
    (by decide) (by decide) (by decide) (by decide)

/-! ### Claim C7 -/

/-- C7 (confirmed): an online node whose free core count
`all_cores - assigned_cores` is zero is not inserted into the tree —
the root is left untouched — while the capacity and free counters are
still updated exactly as in the general online case. -/
theorem c7_zero_free_skips_tree :
    ∀ (qi : QueueInfo) ac asc ag asg (priv : Bool) devices,
      ac - asc = 0 →
      (qi.add_vnode ac asc ag asg false priv devices).root = qi.root ∧
      (qi.add_vnode ac asc ag asg false priv devices).counter.max_cores =
        qi.counter.max_cores + ac ∧
      (qi.add_vnode ac asc ag asg false priv devices).counter.max_gpus =
        qi.counter.max_gpus + ag ∧
      (qi.add_vnode ac asc ag asg false priv devices).counter.free_cores =
        qi.counter.free_cores + (ac - asc) ∧
      (qi.add_vnode ac asc ag asg false priv devices).counter.free_gpus =
        qi.counter.free_gpus + (ag - asg) ∧
      (priv = true →
        (qi.add_vnode ac asc ag asg false priv devices).counter.min_cores =
          qi.counter.min_cores + ac ∧
        (qi.add_vnode ac asc ag asg false priv devices).counter.min_gpus =
          qi.counter.min_gpus + ag) ∧
      (priv = false →
        (qi.add_vnode ac asc ag asg false priv devices).counter.min_cores =
          qi.counter.min_cores ∧
        (qi.add_vnode ac asc ag asg false priv devices).counter.min_gpus =
          qi.counter.min_gpus) ∧
      (qi.add_vnode ac asc ag asg false priv devices).counter.offline_cores =
        qi.counter.offline_cores ∧
      (qi.add_vnode ac asc ag asg false priv devices).counter.offline_gpus =
        qi.counter.offline_gpus ∧
      (qi.add_vnode ac asc ag asg false priv devices).users = qi.users ∧
      (qi.add_vnode ac asc ag asg false priv devices).job_size =
        qi.job_size := by
  intro qi ac asc ag asg priv devices h
  cases priv <;> simp [QueueInfo.add_vnode, h]

/-- C7 witness: a fully-assigned 16-core node leaves a concrete
queue's tree untouched while its counters move. -/
theorem c7_zero_free_skips_tree_witness :
    (QueueInfo.add_vnode
        ⟨"q1", QCounter.init, [], [],
          DevNode.mk "cluster" "root" none none 0 0 [], 16, 8, 4, 1, 2, 4⟩
        16 16 2 0 false true (fun _ => none)).root =
      (⟨"q1", QCounter.init, [], [],
          DevNode.mk "cluster" "root" none none 0 0 [], 16, 8, 4, 1, 2, 4⟩ :
        QueueInfo).root :=
  (c7_zero_free_skips_tree
    ⟨"q1", QCounter.init, [], [],
      DevNode.mk "cluster" "root" none none 0 0 [], 16, 8, 4, 1, 2, 4⟩
    16 16 2 0 true (fun _ => none) (by decide)).1

/-! ### Claim C8 -/

/-- C8 (confirmed): a job whose state is neither "R" nor "Q" changes
nothing — counters, user sets and job-size samples are untouched at
both queue and cluster scope. -/
theorem c8_other_states_unclassified :
    ∀ (s : ServerInfo) (qi : QueueInfo) (j : JobData),
      j.job_state ≠ "R" → j.job_state ≠ "Q" →
      classifyJob s qi j = (s, qi) := by
  intro s qi j h1 h2
  simp [classifyJob, h1, h2]

/-- C8 witness: a held job (state "H") is a no-op. -/
theorem c8_other_states_unclassified_witness :
    classifyJob ServerInfo.init
      ⟨"q1", QCounter.init, [], [],
        DevNode.mk "cluster" "root" none none 0 0 [], 16, 8, 4, 1, 2, 4⟩
      ⟨"q1", "H", some 4, none, "alice"⟩ =
    (ServerInfo.init,
      ⟨"q1", QCounter.init, [], [],
        DevNode.mk "cluster" "root" none none 0 0 [], 16, 8, 4, 1, 2, 4⟩) :=
  c8_other_states_unclassified ServerInfo.init
    ⟨"q1", QCounter.init, [], [],
      DevNode.mk "cluster" "root" none none 0 0 [], 16, 8, 4, 1, 2, 4⟩
    ⟨"q1", "H", some 4, none, "alice"⟩ (by decide) (by decide)

/-! ### Claim C9 -/

/-- C9 (confirmed): a job whose owning queue is absent from the queue
catalogue is skipped — it contributes to no counter at any scope —
and the remaining jobs are still processed. -/
theorem c9_unknown_queue_skipped :
    ∀ (s : ServerInfo) (queues : List (String × QueueInfo))
      (j : JobData) (rest : List JobData),
      qlookup j.queue queues = none →
      processJobs s queues (j :: rest) = processJobs s queues rest := by
  intro s queues j rest h
  rw [processJobs, h]

/-- C9 witness: a job for the undeclared queue "ghost" is skipped and
the following job is still classified. -/
theorem c9_unknown_queue_skipped_witness :
    processJobs ServerInfo.init [] (⟨"ghost", "R", some 4, none, "bob"⟩ ::
        [⟨"ghost2", "Q", some 2, none, "eve"⟩]) =
      processJobs ServerInfo.init [] [⟨"ghost2", "Q", some 2, none, "eve"⟩] :=
  c9_unknown_queue_skipped ServerInfo.init []
    ⟨"ghost", "R", some 4, none, "bob"⟩
    [⟨"ghost2", "Q", some 2, none, "eve"⟩] rfl

/-! ### Claim C10 -/

/-- C10 (confirmed): constructing a `QueueInfo` with per-vnode core
density 0 hits the unconditional floor divisions in the gpu capacity
map and raises ZeroDivisionError (modelled as `none`); since the
pipeline maps a missing `ncpu_pernode` attribute to 0, the queue
construction loop turns any such queue into an error that aborts the
whole pass. -/
theorem c10_zero_vnode_density_aborts :
    (∀ q host socket gpus_vnode,
      QueueInfo.init q host socket 0 gpus_vnode = none) ∧
    (∀ q (cfg : QueueCfg) rest, cfg.vnode = none →
      initQueues ((q, cfg) :: rest) = .error "ZeroDivisionError") := by
  constructor
  · intro q host socket gpus_vnode
    simp [QueueInfo.init]
  · intro q cfg rest h
    rw [initQueues]
    simp [h, orZero, QueueInfo.init]

/-- C10 witness: a queue lacking `ncpu_pernode` aborts construction. -/
theorem c10_zero_vnode_density_aborts_witness :
    QueueInfo.init "q1" 16 8 0 2 = none ∧
    initQueues [("q1", ⟨some 16, some 8, none, some 2⟩)] =
      .error "ZeroDivisionError" :=
  ⟨c10_zero_vnode_density_aborts.1 "q1" 16 8 2,
   c10_zero_vnode_density_aborts.2 "q1" ⟨some 16, some 8, none, some 2⟩ []
     rfl⟩

/-! ### Claim C3 -/

/-- C3 (code bug): the sanitizer has no retry bound.  The empty
document is a fixpoint of the repair step (its single empty line is
removed and the join restores the empty document), so whenever the
parser rejects the empty document at line 1 — as json.loads does — the
loop never terminates: no amount of fuel makes it produce a result,
where the claim demands a bounded retry count followed by an explicit
ingestion error. -/
theorem c3_sanitizer_never_terminates_on_empty :
    ∀ (J : Type) (parse : List Char → Except Nat J),
      parse [] = Except.error 1 →
      ∀ fuel, safety_loads parse fuel [] = none := by
  intro J parse h fuel
  induction fuel with
  | zero => rfl
  | succ n ih =>
    rw [safety_loads, h]
    simpa [splitLines, joinLines] using ih

/-- C3 witness: with a parser that rejects the empty document at
line 1, five iterations of the loop still yield no result. -/
theorem c3_sanitizer_never_terminates_on_empty_witness :
    safety_loads (fun _ => (Except.error 1 : Except Nat Unit)) 5 [] =
      none :=
  c3_sanitizer_never_terminates_on_empty Unit
    (fun _ => Except.error 1) rfl 5

/-! ### Claim C6 -/

/-- C6 (counterexample): `load` is 0.0 whenever `using + waiting = 0`,
not only when `using + free = 0`: with using = 0, waiting = 0,
free = 1 the denominator is nonzero yet the load is 0.0, so "equals
0.0 exactly when using_cores + free_cores == 0" fails in the
only-if direction. -/
theorem c6_load_zero_counterexample :
    load 0 0 1 = 0 ∧ (0 : Int) + 1 ≠ 0 := by
  constructor
  · norm_num [load, tryDiv, roundTo2, roundHalfEven]
  · decide

/-- C6 (amended): `load` equals 0.0 when `using + free = 0` (the
ZeroDivisionError handler), and otherwise equals the ratio
`(using + waiting) / (using + free)` rounded to two decimals — a
value that can itself be 0.0; in particular using=5, waiting=3,
free=2 gives round(8/7, 2) = 1.14. -/
theorem c6_load_formula_amended :
    (∀ u w f : Int,
      (u + f = 0 → load u w f = 0) ∧
      (u + f ≠ 0 → load u w f =
        roundTo2 (((u : ℚ) + (w : ℚ)) / ((u : ℚ) + (f : ℚ))))) ∧
    load 5 3 2 = 57 / 50 := by
  constructor
  · intro u w f
    constructor
    · intro h
      have hq : ((u : ℚ) + (f : ℚ)) = 0 := by
        exact_mod_cast congrArg (fun z : Int => (z : ℚ)) h
      simp [load, tryDiv, hq]
    · intro h
      have hq : ((u : ℚ) + (f : ℚ)) ≠ 0 := by
        intro hc
        exact h (by exact_mod_cast hc)
      simp [load, tryDiv, hq]
  · have hfl : ⌊(8 / 7 : ℚ) * 100⌋ = 114 := by
      norm_num [Int.floor_eq_iff]
    simp only [load, tryDiv]
    norm_num [roundTo2, roundHalfEven, hfl]

/-- C6 witness: both branches of the amended statement at concrete
counters. -/
theorem c6_load_formula_amended_witness :
    load 0 0 0 = 0 ∧
    load 4 0 4 = roundTo2 (((4 : ℚ) + (0 : ℚ)) / ((4 : ℚ) + (4 : ℚ))) :=
  ⟨(c6_load_formula_amended.1 0 0 0).1 rfl,
   (c6_load_formula_amended.1 4 0 4).2 (by decide)⟩

end PbsCache
